import Mathlib

/-!
Verification development for the on-chain campaign synchronization and
balance/formatting layer of a prediction-market dApp front end
(`src/unnamed/part_000` of the repository, a TypeScript module built on
ethers.js and a hosted key-value/record store).

The TypeScript functions are shallowly embedded as Lean definitions:
  * JavaScript strings become `List Char` (for character-level functions)
    or `List Nat` of UTF-16 code units (for the `charCodeAt`-based hash);
  * JavaScript 32-bit signed integer coercion (`x | 0`, `x & x`, `<<`)
    becomes `toInt32`, the signed representative of the residue mod 2^32;
  * every external effect (HTTP fetch, localStorage, the ethers provider
    and contract calls, the record store) becomes an explicit environment
    record whose fields carry each call's outcome, so an `async` function
    becomes a pure function of its environment (and, for the store
    reconciler, an explicit state transformer);
  * a JavaScript exception becomes `Except`, with the error's `.message`
    field carried as a `String` (possibly empty, as in JS).
Numeric pool amounts are modelled as exact integers (`Int`); the source
uses JS numbers, but every claim about them is stated at integer inputs.
-/

/-- A JavaScript error value, reduced to the `.message` field the code
reads; an absent/empty message is the empty string (falsy in JS). -/
structure JSError where
  message : String
deriving Repr, DecidableEq

/-! ## Address/Chain Utilities -/

/-- One hexadecimal digit, as tested by the character class
`[a-fA-F0-9]` of the source's address regex. -/
def isHexDigitChar (c : Char) : Bool :=
  ('0' ≤ c && c ≤ '9') || ('a' ≤ c && c ≤ 'f') || ('A' ≤ c && c ≤ 'F')

/-- Embedding of `isAddressValid` from the source: the regex test
`/^0x[a-fA-F0-9]{40}$/.test(address)`, embedded structurally over the
string's characters. -/
def isAddressValid (address : List Char) : Bool :=
  address.length == 42 && address.take 2 == ['0', 'x'] &&
    (address.drop 2).all isHexDigitChar

/-- The address format as the spec words it: the string decomposes as the
two-character prefix `0x` followed by exactly 40 case-insensitive hex
digits. Stated independently of `isAddressValid` so the two can be
compared. -/
def matchesAddressFormat (address : List Char) : Prop :=
  ∃ rest, address = '0' :: 'x' :: rest ∧ rest.length = 40 ∧
    ∀ c ∈ rest, isHexDigitChar c = true

/-- JavaScript `String.prototype.substring(start, end)` over a character
list: both indices are clamped to `[0, length]` and swapped when out of
order, so the call never throws. -/
def jsSubstring (s : List Char) (start stop : Int) : List Char :=
  let len : Int := s.length
  let a := min (max start 0) len
  let b := min (max stop 0) len
  let lo := min a b
  let hi := max a b
  (s.drop lo.toNat).take (hi - lo).toNat

/-- Embedding of `formatAddress` from the source:
`address.substring(0, 6) + "..." + address.substring(address.length - 4)`
(the one-argument `substring` runs to the end of the string). -/
def formatAddress (address : List Char) : List Char :=
  jsSubstring address 0 6 ++ ['.', '.', '.'] ++
    jsSubstring address (address.length - 4) address.length

/-! ## Campaign Identity Resolver: derived hash -/

/-- The signed 32-bit representative of an integer: the result of
JavaScript's `ToInt32` coercion applied by `<<` and `& `. -/
def toInt32 (n : Int) : Int :=
  let m := n % 4294967296
  if m < 2147483648 then m else m - 4294967296

/-- One step of the source's rolling hash:
`a = ((a << 5) - a) + b.charCodeAt(0); return a & a;`.
`a << 5` coerces to 32-bit signed and shifts; the sum stays exact (JS
doubles are exact at this magnitude); `a & a` coerces the sum back to
32-bit signed. -/
def hashStep (a : Int) (code : Nat) : Int :=
  toInt32 (toInt32 (a * 32) - a + code)

/-- The reduce in `mapMarketIdToCampaignId`: fold `hashStep` over the
string's UTF-16 code units starting from 0. -/
def hashCode (codes : List Nat) : Int :=
  codes.foldl hashStep 0

/-- JavaScript's `%` (remainder with the dividend's sign) for a positive
divisor. -/
def jsRem (a b : Int) : Int :=
  if 0 ≤ a then a % b else -((-a) % b)

/-- Embedding of `mapMarketIdToCampaignId` from the source:
`Math.abs(hashCode % 1000)`, on the market identifier's code units. -/
def mapMarketIdToCampaignId (codes : List Nat) : Nat :=
  (jsRem (hashCode codes) 1000).natAbs

/-- The hash-step the spec describes: `hash = hash*31 + charCode`
collapsed to a 32-bit signed accumulator. Stated independently of
`hashStep` so the two can be compared. -/
def specHashStep (a : Int) (code : Nat) : Int :=
  toInt32 (31 * a + code)

/-! ## Campaign Identity Resolver: `getOnChainCampaignId`

The function awaits `fetch`, inspects `response.ok`, awaits
`response.json()`, tests the truthiness of `data.on_chain_id`, then falls
back to `localStorage.getItem`; the whole body sits in one `try` whose
`catch` returns `null`. The environment carries each external call's
outcome: a `.error` constructor is a rejected promise / thrown exception. -/

/-- The JSON body of the market-lookup response, reduced to the one field
the code reads: `on_chain_id`, absent (`none`) or a string (possibly
empty; the empty string is falsy in JS). -/
structure MarketRecord where
  on_chain_id : Option String
deriving Repr, DecidableEq

/-- A settled `fetch` response: the `ok` flag and the outcome of awaiting
`response.json()` (which can itself reject). -/
structure FetchResponse where
  ok : Bool
  json : Except JSError MarketRecord

/-- Environment of one `getOnChainCampaignId` call: the fetch outcome
(`.error` = network failure, the promise rejected) and the local durable
cache (`localStorage`), a partial map from key to stored string. -/
structure ResolverEnv where
  fetchResult : Except JSError FetchResponse
  localStorage : String → Option String

/-- JS truthiness of a nullable string: present and non-empty. -/
def truthy : Option String → Bool
  | some s => s ≠ ""
  | none => false

/-- Embedding of `getOnChainCampaignId` from the source. Remote value first
(`response.ok` and truthy `data.on_chain_id`), then the durable cache at
key `market_<id>_onchain_id`, else `null`; any thrown error (rejected
fetch or JSON parse) reaches the `catch`, which returns `null`. -/
def getOnChainCampaignId (env : ResolverEnv) (marketId : String) :
    Option String :=
  match env.fetchResult with
  | .error _ => none
  | .ok response =>
    let remote : Except JSError (Option String) :=
      if response.ok then
        match response.json with
        | .error e => .error e
        | .ok data =>
          .ok (if truthy data.on_chain_id then data.on_chain_id else none)
      else .ok none
    match remote with
    | .error _ => none
    | .ok (some id) => some id
    | .ok none =>
      match env.localStorage ("market_" ++ marketId ++ "_onchain_id") with
      | some stored => if stored ≠ "" then some stored else none
      | none => none

/-! ## Campaign Writer: `createCampaignOnChain`

Submission and confirmation are awaited contract calls; the receipt's
logs are mapped through `contract.interface.parseLog` (a failed parse
yields `null`), so the embedding carries the logs already parsed, as
`Option ParsedLog`. The outer `catch` normalizes every thrown error into
`new Error(error.message || "Failed to create campaign on-chain")`. -/

/-- An event log as returned by `parseLog`: the event name and the
positional `args` (campaign ids are `uint256`, carried as `Int` since
the code immediately stringifies them). -/
structure ParsedLog where
  name : String
  args : List Int
deriving Repr, DecidableEq

/-- A confirmed transaction receipt, reduced to its logs, each already
put through `parseLog` (`none` = the parse threw). -/
structure Receipt where
  parsedLogs : List (Option ParsedLog)

/-- Environment of one `createCampaignOnChain` call: the outcome of the
`createCampaign` submission, of `tx.wait()`, and of the fallback
`numberOfCampaigns()` read. -/
structure WriterEnv where
  submitResult : Except JSError Unit
  waitResult : Except JSError Receipt
  numberOfCampaigns : Except JSError Int

/-- The normalization in the outer catch:
`error.message || "Failed to create campaign on-chain"`. -/
def normalizeError (e : JSError) : String :=
  if e.message ≠ "" then e.message else "Failed to create campaign on-chain"

/-- The `.find(log => log && log.name === 'CampaignCreated')` over the
parsed logs. -/
def findCampaignCreated (logs : List (Option ParsedLog)) :
    Option (Option ParsedLog) :=
  logs.find? fun l =>
    match l with
    | some p => p.name == "CampaignCreated"
    | none => false

/-- The fallback identifier derivation: read `numberOfCampaigns()` and
return `(total - 1n).toString()`; a thrown error propagates to the outer
catch, normalized. -/
def fallbackCampaignId (env : WriterEnv) : Except String String :=
  match env.numberOfCampaigns with
  | .error e => .error (normalizeError e)
  | .ok total => .ok (toString (total - 1))

/-- Embedding of `createCampaignOnChain` from the source, as a function of the call's
environment. A found `CampaignCreated` log yields `args[0].toString()`;
with empty `args`, `args[0]` is `undefined` and `.toString()` throws,
which the inner catch swallows, falling to the count fallback — as does
a missing event. Every error elsewhere reaches the outer catch and is
re-thrown normalized. -/
def createCampaignOnChain (env : WriterEnv) : Except String String :=
  match env.submitResult with
  | .error e => .error (normalizeError e)
  | .ok _ =>
    match env.waitResult with
    | .error e => .error (normalizeError e)
    | .ok receipt =>
      match findCampaignCreated receipt.parsedLogs with
      | some (some p) =>
        match p.args with
        | id :: _ => .ok (toString id)
        | [] => fallbackCampaignId env
      | _ => fallbackCampaignId env

/-! ## Pool Reconciler: `updateMarketPools`

The side store holds two logical tables: `prediction_markets` rows with
`yes_pool`/`no_pool`, and append-only `user_positions` rows. The three
store operations (select, update, insert) return `{data, error}` values
and never throw; each one's failure flag lives in the environment. The
TS function returns `Promise<void>` and its catch swallows everything,
so the embedding is a state transformer `Store → Store`: no exception
ever reaches the caller, which the return type makes structural. -/

/-- The position side: the TS union type `'yes' | 'no'`. -/
inductive Side where
  | yes
  | no
deriving Repr, DecidableEq

/-- A `prediction_markets` row, reduced to the two columns the function
touches. -/
structure MarketRow where
  yes_pool : Int
  no_pool : Int
deriving Repr, DecidableEq

/-- A `user_positions` row as inserted by the function. The wallet
address comes from `localStorage.getItem('walletAddress')`, nullable. -/
structure PositionRow where
  market_id : String
  user_wallet_address : Option String
  position_type : Side
  amount : Int
deriving Repr, DecidableEq

/-- The side store's state: the markets table (a partial map keyed by
market id) and the positions table (insertion-ordered rows). -/
structure Store where
  markets : String → Option MarketRow
  positions : List PositionRow

/-- Environment of one `updateMarketPools` call: whether each store
operation reports an error, and the locally persisted wallet address. -/
structure PoolEnv where
  fetchFails : Bool
  updateFails : Bool
  insertFails : Bool
  walletAddress : Option String

/-- Embedding of `updateMarketPools` from the source. Select `yes_pool, no_pool` for
the market (`.single()` errors when the row is absent, and the function
returns on any fetch error); add `amount` to the selected side's column
only (`updates` carries a single column); write back, returning on
error; then insert one `user_positions` row, an error there only being
logged. -/
def updateMarketPools (env : PoolEnv) (st : Store) (marketId : String)
    (position : Side) (amount : Int) : Store :=
  if env.fetchFails then st
  else
    match st.markets marketId with
    | none => st
    | some market =>
      if env.updateFails then st
      else
        let updated :=
          match position with
          | .yes => { market with yes_pool := market.yes_pool + amount }
          | .no => { market with no_pool := market.no_pool + amount }
        let st1 : Store :=
          { st with
            markets := fun k => if k = marketId then some updated else st.markets k }
        if env.insertFails then st1
        else
          { st1 with
            positions := st1.positions ++
              [{ market_id := marketId,
                 user_wallet_address := env.walletAddress,
                 position_type := position,
                 amount := amount }] }

/-! ## Token Balance Reader: `getTokenBalance`

`if (!provider || !walletAddress) return "0"`, then signer, contract,
`balanceOf`, `decimals`, all awaited inside one `try` whose catch
returns `"0"`. The happy-path formatting chain
`parseFloat(ethers.formatUnits(balance, decimals)).toFixed(2)` is
embedded as exact decimal arithmetic (`formatTo2Decimals`): divide the
raw integer balance by `10^decimals` and round to the nearest cent,
printed with exactly two fractional digits. -/

/-- Environment of one `getTokenBalance` call: the provider handle
(`null` or connected) and the outcomes of the awaited calls. Contract
construction failures fold into the first failing call's slot. -/
structure BalanceEnv where
  provider : Option Unit
  signerResult : Except JSError Unit
  balanceOf : Except JSError Nat
  decimals : Except JSError Nat

/-- Two decimal digits with a leading zero when needed. -/
def twoDigits (n : Nat) : String :=
  if n < 10 then "0" ++ toString n else toString n

/-- The formatting chain `formatUnits` + `parseFloat` + `.toFixed(2)`
as exact arithmetic: `balance / 10^decimals` rounded to the nearest
hundredth (half away from zero) and printed with two fractional
digits. -/
def formatTo2Decimals (balance decimals : Nat) : String :=
  let p := 10 ^ decimals
  let cents := (200 * balance + p) / (2 * p)
  toString (cents / 100) ++ "." ++ twoDigits (cents % 100)

/-- Embedding of `getTokenBalance` from the source. `"0"` when the provider is null
or the wallet address empty (falsy); otherwise the balance formatted to
two decimals, with every thrown error caught and mapped to `"0"`. -/
def getTokenBalance (env : BalanceEnv) (walletAddress : String) : String :=
  if env.provider = none ∨ walletAddress = "" then "0"
  else
    match env.signerResult with
    | .error _ => "0"
    | .ok _ =>
      match env.balanceOf with
      | .error _ => "0"
      | .ok balance =>
        match env.decimals with
        | .error _ => "0"
        | .ok decimals => formatTo2Decimals balance decimals

/-! # Theorems -/

/-! ## Helper lemmas -/

theorem toInt32_congr {x y : Int} (h : x % 4294967296 = y % 4294967296) :
    toInt32 x = toInt32 y := by
  simp only [toInt32]
  rw [h]

theorem toInt32_emod (x : Int) : toInt32 x % 4294967296 = x % 4294967296 := by
  simp only [toInt32]
  split <;> omega

theorem hashStep_eq_specHashStep : hashStep = specHashStep := by
  funext a code
  unfold hashStep specHashStep
  apply toInt32_congr
  have h := toInt32_emod (a * 32)
  omega

/-! ## C8 -/

/-- C8: `mapMarketIdToCampaignId` equals folding the code units through
`hash = hash*31 + charCode` collapsed to a 32-bit signed accumulator,
then taking the remainder mod 1000 with absolute value, and its result
is (a natural number, hence non-negative) strictly below 1000; being a
pure Lean function of the code units, it is deterministic. -/
theorem mapMarketIdToCampaignId_spec (codes : List Nat) :
    mapMarketIdToCampaignId codes =
      (jsRem (codes.foldl specHashStep 0) 1000).natAbs ∧
    mapMarketIdToCampaignId codes < 1000 := by
  constructor
  · unfold mapMarketIdToCampaignId hashCode
    rw [hashStep_eq_specHashStep]
  · unfold mapMarketIdToCampaignId jsRem
    split <;> omega

/-! ## C9 -/

/-- C9: `isAddressValid` returns true exactly on the strings matching
the anchored pattern `0x` followed by 40 case-insensitive hex digits. -/
theorem isAddressValid_iff_matchesAddressFormat (address : List Char) :
    isAddressValid address = true ↔ matchesAddressFormat address := by
  unfold isAddressValid matchesAddressFormat
  constructor
  · intro h
    simp only [Bool.and_eq_true, beq_iff_eq, List.all_eq_true] at h
    obtain ⟨⟨hlen, htake⟩, hall⟩ := h
    rcases address with _ | ⟨a, _ | ⟨b, t⟩⟩
    · simp at hlen
    · simp at hlen
    · simp only [List.take, List.cons.injEq, and_true] at htake
      obtain ⟨rfl, rfl⟩ := htake
      refine ⟨t, rfl, by simpa using hlen, fun c hc => hall c (by simpa using hc)⟩
  · rintro ⟨rest, rfl, hlen, hall⟩
    simp [hlen, List.all_eq_true]
    exact hall

/-! ## C10 -/

theorem jsSubstring_zero_six (s : List Char) : jsSubstring s 0 6 = s.take 6 := by
  simp only [jsSubstring]
  have hL : (0:Int) ≤ (s.length : Int) := Int.natCast_nonneg _
  rcases le_total 6 (s.length : Int) with hc | hc
  · have e1 : min (min (max (0:Int) 0) s.length) (min (max 6 0) s.length) = 0 := by
      omega
    have e2 : max (min (max (0:Int) 0) s.length) (min (max 6 0) s.length) = 6 := by
      omega
    rw [e1, e2]
    norm_num
    rfl
  · have e1 : min (min (max (0:Int) 0) s.length) (min (max 6 0) s.length) = 0 := by
      omega
    have e2 : max (min (max (0:Int) 0) s.length) (min (max 6 0) s.length)
        = (s.length : Int) := by omega
    rw [e1, e2]
    have h6 : s.length ≤ 6 := by exact_mod_cast hc
    have e3 : ((s.length : Int) - 0).toNat = s.length := by omega
    rw [e3]
    simp [List.take_length, List.take_of_length_le h6]

theorem jsSubstring_last_four (s : List Char) :
    jsSubstring s ((s.length : Int) - 4) s.length = s.drop (s.length - 4) := by
  simp only [jsSubstring]
  have hL : (0:Int) ≤ (s.length : Int) := Int.natCast_nonneg _
  have e1 : min (min (max ((s.length:Int) - 4) 0) s.length)
      (min (max (s.length:Int) 0) s.length) = max ((s.length:Int) - 4) 0 := by omega
  have e2 : max (min (max ((s.length:Int) - 4) 0) s.length)
      (min (max (s.length:Int) 0) s.length) = s.length := by omega
  rw [e1, e2]
  have e3 : (max ((s.length:Int) - 4) 0).toNat = s.length - 4 := by omega
  have e4 : ((s.length:Int) - max ((s.length:Int) - 4) 0).toNat
      = min 4 s.length := by omega
  rw [e3, e4]
  apply List.take_of_length_le
  simp [List.length_drop]
  omega

theorem formatAddress_eq (address : List Char) :
    formatAddress address =
      address.take 6 ++ ['.', '.', '.'] ++ address.drop (address.length - 4) := by
  unfold formatAddress
  rw [jsSubstring_zero_six, jsSubstring_last_four]

/-- C10: `formatAddress` is total — on every input, short ones included,
it returns the clamped prefix, an ellipsis, and the clamped suffix, with
the stated length — and on every valid address it returns the first six
characters, `"..."`, and the last four, a string of length 6+3+4. -/
theorem formatAddress_spec (address : List Char) :
    (formatAddress address).length
      = min 6 address.length + 3 + min 4 address.length ∧
    (isAddressValid address = true →
      formatAddress address =
        address.take 6 ++ ['.', '.', '.'] ++ address.drop (address.length - 4) ∧
      (formatAddress address).length = 13) := by
  refine ⟨?_, fun hv => ⟨formatAddress_eq address, ?_⟩⟩
  · rw [formatAddress_eq]
    simp [List.length_append, List.length_take, List.length_drop]
    omega
  · have hlen : address.length = 42 := by
      unfold isAddressValid at hv
      simp only [Bool.and_eq_true, beq_iff_eq] at hv
      exact hv.1.1
    rw [formatAddress_eq]
    simp [List.length_append, List.length_take, List.length_drop, hlen]

/-- Closed instance of C10 at the repository's own contract address. -/
theorem formatAddress_spec_witness :
    formatAddress "0x42a2F4e5389F6e7466D97408724Dba38812f184E".data
      = "0x42a2...184E".data ∧
    (formatAddress "0x42a2F4e5389F6e7466D97408724Dba38812f184E".data).length = 13 ∧
    (formatAddress "abc".data).length = 9 := by
  have h := formatAddress_spec "0x42a2F4e5389F6e7466D97408724Dba38812f184E".data
  have hshort := formatAddress_spec "abc".data
  have hv := (h.2 (by decide))
  exact ⟨by rw [hv.1]; decide, hv.2, by rw [hshort.1]; decide⟩

/-! ## C5 -/

/-- The remote store holds an identifier: the fetch settled, the
response was ok, its JSON parsed, and the `on_chain_id` field is a
non-empty string. -/
def remoteHolds (env : ResolverEnv) : Prop :=
  ∃ response data id, env.fetchResult = .ok response ∧ response.ok = true ∧
    response.json = .ok data ∧ data.on_chain_id = some id ∧ id ≠ ""

/-- The local durable cache holds an identifier for the market: a
non-empty string is stored under `market_<id>_onchain_id`. -/
def cacheHolds (env : ResolverEnv) (marketId : String) : Prop :=
  ∃ stored, env.localStorage ("market_" ++ marketId ++ "_onchain_id")
      = some stored ∧ stored ≠ ""

/-- C5: whenever the remote endpoint answers with a non-error response
carrying a non-empty `on_chain_id`, `getOnChainCampaignId` returns it —
the local cache, arbitrary here, is ignored — and whenever neither the
remote store nor the local cache holds a value, it returns `null`. -/
theorem getOnChainCampaignId_spec (env : ResolverEnv) (marketId : String) :
    (∀ response data id, env.fetchResult = .ok response → response.ok = true →
      response.json = .ok data → data.on_chain_id = some id → id ≠ "" →
      getOnChainCampaignId env marketId = some id) ∧
    (¬ remoteHolds env → ¬ cacheHolds env marketId →
      getOnChainCampaignId env marketId = none) := by
  constructor
  · intro response data id hf hok hjson hid hne
    unfold getOnChainCampaignId
    rw [hf]
    simp only [hok, if_true, hjson, truthy, hid]
    simp [hne]
  · intro hnr hnc
    rcases hf : env.fetchResult with e | response
    · simp [getOnChainCampaignId, hf]
    · rcases hok : response.ok with _ | _
      · rcases hc : env.localStorage ("market_" ++ marketId ++ "_onchain_id")
          with _ | stored
        · simp [getOnChainCampaignId, hf, hok, hc]
        · rcases eq_or_ne stored "" with rfl | hne
          · simp [getOnChainCampaignId, hf, hok, hc]
          · exact absurd ⟨stored, hc, hne⟩ hnc
      · rcases hj : response.json with e | data
        · simp [getOnChainCampaignId, hf, hok, hj]
        · rcases hid : data.on_chain_id with _ | id
          · rcases hc : env.localStorage ("market_" ++ marketId ++ "_onchain_id")
              with _ | stored
            · simp [getOnChainCampaignId, hf, hok, hj, hid, truthy, hc]
            · rcases eq_or_ne stored "" with rfl | hne
              · simp [getOnChainCampaignId, hf, hok, hj, hid, truthy, hc]
              · exact absurd ⟨stored, hc, hne⟩ hnc
          · rcases eq_or_ne id "" with rfl | hne
            · rcases hc : env.localStorage ("market_" ++ marketId ++ "_onchain_id")
                with _ | stored
              · simp [getOnChainCampaignId, hf, hok, hj, hid, truthy, hc]
              · rcases eq_or_ne stored "" with rfl | hne
                · simp [getOnChainCampaignId, hf, hok, hj, hid, truthy, hc]
                · exact absurd ⟨stored, hc, hne⟩ hnc
            · exact absurd ⟨response, data, id, hf, hok, hj, hid, hne⟩ hnr

/-- A resolver environment whose remote answers ok with id "42" while
the cache holds "7" for every key. -/
def resolverEnvRemote : ResolverEnv :=
  { fetchResult := .ok { ok := true, json := .ok { on_chain_id := some "42" } },
    localStorage := fun _ => some "7" }

/-- A resolver environment whose remote answers non-ok and whose cache
is empty. -/
def resolverEnvEmpty : ResolverEnv :=
  { fetchResult := .ok { ok := false, json := .ok { on_chain_id := none } },
    localStorage := fun _ => none }

/-- Closed instance of C5: remote id "42" wins over a cache holding "7";
with remote non-ok and cache empty the result is `null`. -/
theorem getOnChainCampaignId_spec_witness :
    getOnChainCampaignId resolverEnvRemote "m1" = some "42" ∧
    getOnChainCampaignId resolverEnvEmpty "m1" = none := by
  constructor
  · exact (getOnChainCampaignId_spec resolverEnvRemote "m1").1 _ _ _
      rfl rfl rfl rfl (by decide)
  · refine (getOnChainCampaignId_spec resolverEnvEmpty "m1").2 ?_ ?_
    · rintro ⟨r, d, i, hf, hok, hj, hid, hne⟩
      simp only [resolverEnvEmpty] at hf
      rw [Except.ok.injEq] at hf
      subst hf
      simp at hok
    · rintro ⟨stored, hc, hne⟩
      simp [resolverEnvEmpty] at hc

/-! ## C1 -/

/-- A resolver environment where the fetch itself rejects (network
failure) while the durable cache holds "7" for the market `m1`. -/
def resolverEnvNetworkFail : ResolverEnv :=
  { fetchResult := .error { message := "network failure" },
    localStorage := fun key =>
      if key = "market_m1_onchain_id" then some "7" else none }

/-- C1 counterexample: when the remote query fails with a thrown error
(rejected fetch) and the local cache holds "7", `getOnChainCampaignId`
returns `null`, not "7" — the thrown error does short-circuit the cache
lookup, against the claim. -/
theorem getOnChainCampaignId_network_fail_cex :
    resolverEnvNetworkFail.localStorage "market_m1_onchain_id" = some "7" ∧
    getOnChainCampaignId resolverEnvNetworkFail "m1" = none ∧
    getOnChainCampaignId resolverEnvNetworkFail "m1" ≠ some "7" := by
  refine ⟨by simp [resolverEnvNetworkFail], rfl, by decide⟩

/-- C1 (amended): a non-OK response is caught as "no remote value" and
falls through to the durable cache (cache "7" gives result "7"), while a
remote query that fails with a thrown error (network failure) is caught
— never fatal — but returns `null` without consulting the cache. -/
theorem getOnChainCampaignId_amended (env : ResolverEnv) (marketId : String) :
    (∀ response stored, env.fetchResult = .ok response → response.ok = false →
      env.localStorage ("market_" ++ marketId ++ "_onchain_id") = some stored →
      stored ≠ "" → getOnChainCampaignId env marketId = some stored) ∧
    (∀ e, env.fetchResult = .error e →
      getOnChainCampaignId env marketId = none) := by
  constructor
  · intro response stored hf hok hc hne
    simp [getOnChainCampaignId, hf, hok, hc, hne]
  · intro e hf
    simp [getOnChainCampaignId, hf]

/-- A resolver environment whose remote answers non-ok while the durable
cache holds "7" for the market `m1`. -/
def resolverEnvNotOk : ResolverEnv :=
  { fetchResult := .ok { ok := false, json := .ok { on_chain_id := none } },
    localStorage := fun key =>
      if key = "market_m1_onchain_id" then some "7" else none }

/-- Closed instance of the amended C1: non-OK response with cache "7"
gives "7"; rejected fetch gives `null`. -/
theorem getOnChainCampaignId_amended_witness :
    getOnChainCampaignId resolverEnvNotOk "m1" = some "7" ∧
    getOnChainCampaignId resolverEnvNetworkFail "m1" = none := by
  constructor
  · exact (getOnChainCampaignId_amended resolverEnvNotOk "m1").1 _ "7"
      rfl rfl (by decide) (by decide)
  · exact (getOnChainCampaignId_amended resolverEnvNetworkFail "m1").2 _ rfl

/-! ## C2 -/

/-- C2: on a successful submission and confirmation, a `CampaignCreated`
event found among the parsed logs yields its first argument (the id)
stringified; no matching event yields the ledger's running campaign
count minus one, stringified. -/
theorem createCampaignOnChain_success (env : WriterEnv) (receipt : Receipt) :
    (∀ p id rest, env.submitResult = .ok () → env.waitResult = .ok receipt →
      findCampaignCreated receipt.parsedLogs = some (some p) →
      p.args = id :: rest → createCampaignOnChain env = .ok (toString id)) ∧
    (∀ total, env.submitResult = .ok () → env.waitResult = .ok receipt →
      findCampaignCreated receipt.parsedLogs = none →
      env.numberOfCampaigns = .ok total →
      createCampaignOnChain env = .ok (toString (total - 1))) := by
  constructor
  · intro p id rest hs hw hfind hargs
    simp [createCampaignOnChain, hs, hw, hfind, hargs]
  · intro total hs hw hfind hcount
    simp [createCampaignOnChain, fallbackCampaignId, hs, hw, hfind, hcount]

/-- A writer environment whose confirmation logs contain a
`CampaignCreated` event with id 5 (after an unparseable log), with a
ledger count of 99. -/
def writerEnvEvent : WriterEnv :=
  { submitResult := .ok (),
    waitResult := .ok { parsedLogs :=
      [none, some { name := "CampaignCreated", args := [5, 77] }] },
    numberOfCampaigns := .ok 99 }

/-- A writer environment whose confirmation logs contain no matching
event, with a ledger count of 9. -/
def writerEnvNoEvent : WriterEnv :=
  { submitResult := .ok (),
    waitResult := .ok { parsedLogs :=
      [none, some { name := "Transfer", args := [1] }] },
    numberOfCampaigns := .ok 9 }

/-- Closed instance of C2: event id 5 gives "5"; no event and count 9
gives "8". -/
theorem createCampaignOnChain_success_witness :
    createCampaignOnChain writerEnvEvent = .ok "5" ∧
    createCampaignOnChain writerEnvNoEvent = .ok "8" := by
  constructor
  · have h := (createCampaignOnChain_success writerEnvEvent
      { parsedLogs :=
        [none, some { name := "CampaignCreated", args := [5, 77] }] }).1
      { name := "CampaignCreated", args := [5, 77] } 5 [77]
      rfl rfl (by decide) rfl
    rw [h]; congr 1
  · have h := (createCampaignOnChain_success writerEnvNoEvent
      { parsedLogs := [none, some { name := "Transfer", args := [1] }] }).2
      9 rfl rfl (by decide) rfl
    rw [h]; congr 1

/-! ## C7 -/

/-- C7: every failure — at submission, at the confirmation wait, or at
the count read after both identifier-recovery paths came up empty — is
re-thrown as a single normalized error carrying the underlying message,
or the generic "Failed to create campaign on-chain" when the underlying
message is empty. -/
theorem createCampaignOnChain_error_normalization (env : WriterEnv) :
    (∀ e, env.submitResult = .error e →
      createCampaignOnChain env = .error
        (if e.message ≠ "" then e.message
         else "Failed to create campaign on-chain")) ∧
    (∀ e, env.submitResult = .ok () → env.waitResult = .error e →
      createCampaignOnChain env = .error
        (if e.message ≠ "" then e.message
         else "Failed to create campaign on-chain")) ∧
    (∀ e receipt, env.submitResult = .ok () → env.waitResult = .ok receipt →
      (findCampaignCreated receipt.parsedLogs = none ∨
        ∃ p, findCampaignCreated receipt.parsedLogs = some (some p) ∧
          p.args = []) →
      env.numberOfCampaigns = .error e →
      createCampaignOnChain env = .error
        (if e.message ≠ "" then e.message
         else "Failed to create campaign on-chain")) := by
  refine ⟨?_, ?_, ?_⟩
  · intro e hs
    simp [createCampaignOnChain, normalizeError, hs]
  · intro e hs hw
    simp [createCampaignOnChain, normalizeError, hs, hw]
  · intro e receipt hs hw hfall hcount
    rcases hfall with hnone | ⟨p, hfind, hargs⟩
    · simp [createCampaignOnChain, fallbackCampaignId, normalizeError,
        hs, hw, hnone, hcount]
    · simp [createCampaignOnChain, fallbackCampaignId, normalizeError,
        hs, hw, hfind, hargs, hcount]

/-- A writer environment whose submission rejects with a message-less
error. -/
def writerEnvSubmitFail : WriterEnv :=
  { submitResult := .error { message := "" },
    waitResult := .ok { parsedLogs := [] },
    numberOfCampaigns := .ok 0 }

/-- A writer environment whose confirmation wait rejects. -/
def writerEnvWaitFail : WriterEnv :=
  { submitResult := .ok (),
    waitResult := .error { message := "revert" },
    numberOfCampaigns := .ok 0 }

/-- A writer environment with no matching event whose count read
rejects. -/
def writerEnvCountFail : WriterEnv :=
  { submitResult := .ok (),
    waitResult := .ok { parsedLogs := [none] },
    numberOfCampaigns := .error { message := "rpc down" } }

/-- Closed instance of C7: a message-less submission error becomes the
generic message; wait and count-read errors carry their own messages. -/
theorem createCampaignOnChain_error_normalization_witness :
    createCampaignOnChain writerEnvSubmitFail
      = .error "Failed to create campaign on-chain" ∧
    createCampaignOnChain writerEnvWaitFail = .error "revert" ∧
    createCampaignOnChain writerEnvCountFail = .error "rpc down" := by
  refine ⟨?_, ?_, ?_⟩
  · have h := (createCampaignOnChain_error_normalization writerEnvSubmitFail).1
      { message := "" } rfl
    rw [h]; congr 1
  · have h := (createCampaignOnChain_error_normalization writerEnvWaitFail).2.1
      { message := "revert" } rfl rfl
    rw [h]; congr 1
  · have h := (createCampaignOnChain_error_normalization writerEnvCountFail).2.2
      { message := "rpc down" } { parsedLogs := [none] } rfl rfl
      (Or.inl (by decide)) rfl
    rw [h]; congr 1

/-! ## C3 -/

/-- The pool column a side selects. -/
def poolOf (side : Side) (m : MarketRow) : Int :=
  match side with
  | .yes => m.yes_pool
  | .no => m.no_pool

/-- The opposite side. -/
def otherSide : Side → Side
  | .yes => .no
  | .no => .yes

/-- C3: when the read, the update and the insert all succeed,
`updateMarketPools` adds the amount to the selected side's pool, leaves
the other side's pool unchanged, and appends exactly one position
record carrying that side and amount. -/
theorem updateMarketPools_success (env : PoolEnv) (st : Store)
    (marketId : String) (position : Side) (amount : Int) (market : MarketRow)
    (h1 : env.fetchFails = false) (h2 : env.updateFails = false)
    (h3 : env.insertFails = false) (hm : st.markets marketId = some market) :
    ∃ market2,
      (updateMarketPools env st marketId position amount).markets marketId
        = some market2 ∧
      poolOf position market2 = poolOf position market + amount ∧
      poolOf (otherSide position) market2
        = poolOf (otherSide position) market ∧
      (updateMarketPools env st marketId position amount).positions
        = st.positions ++
          [{ market_id := marketId, user_wallet_address := env.walletAddress,
             position_type := position, amount := amount }] := by
  cases position <;>
    simp [updateMarketPools, poolOf, otherSide, h1, h2, h3, hm]

/-- A pool environment where every store operation succeeds. -/
def poolEnvOk : PoolEnv :=
  { fetchFails := false, updateFails := false, insertFails := false,
    walletAddress := some "0xabc" }

/-- A store holding one market `m1` with `yes_pool = 10`,
`no_pool = 4`, and no positions. -/
def storeM1 : Store :=
  { markets := fun k => if k = "m1" then some { yes_pool := 10, no_pool := 4 }
      else none,
    positions := [] }

/-- Closed instance of C3: applying amount 3 on side yes to
`yes_pool = 10` gives `yes_pool = 13`, leaves `no_pool = 4`, and appends
the one position record. -/
theorem updateMarketPools_success_witness :
    ∃ market2,
      (updateMarketPools poolEnvOk storeM1 "m1" Side.yes 3).markets "m1"
        = some market2 ∧
      poolOf Side.yes market2 = poolOf Side.yes { yes_pool := 10, no_pool := 4 } + 3 ∧
      poolOf (otherSide Side.yes) market2
        = poolOf (otherSide Side.yes) { yes_pool := 10, no_pool := 4 } ∧
      (updateMarketPools poolEnvOk storeM1 "m1" Side.yes 3).positions
        = storeM1.positions ++
          [{ market_id := "m1", user_wallet_address := poolEnvOk.walletAddress,
             position_type := Side.yes, amount := 3 }] :=
  updateMarketPools_success poolEnvOk storeM1 "m1" Side.yes 3
    { yes_pool := 10, no_pool := 4 } rfl rfl rfl (by simp [storeM1])

/-! ## C4 -/

/-- C4: a failing read (or absent row, which the store's single-row
select reports as an error) or a failing update leaves the store exactly
as it was — no pool change and no position record — and a failing insert
keeps the already-applied pool update while appending nothing: the two
writes are not atomic. The function's type (`Store → Store`, not
`Except`) reflects that no exception ever reaches the caller. -/
theorem updateMarketPools_failure (env : PoolEnv) (st : Store)
    (marketId : String) (position : Side) (amount : Int) :
    (env.fetchFails = true →
      updateMarketPools env st marketId position amount = st) ∧
    (st.markets marketId = none →
      updateMarketPools env st marketId position amount = st) ∧
    (env.updateFails = true →
      updateMarketPools env st marketId position amount = st) ∧
    (∀ market, env.fetchFails = false → st.markets marketId = some market →
      env.updateFails = false → env.insertFails = true →
      (updateMarketPools env st marketId position amount).positions
          = st.positions ∧
      ∃ market2,
        (updateMarketPools env st marketId position amount).markets marketId
          = some market2 ∧
        poolOf position market2 = poolOf position market + amount ∧
        poolOf (otherSide position) market2
          = poolOf (otherSide position) market) := by
  refine ⟨?_, ?_, ?_, ?_⟩
  · intro h
    simp [updateMarketPools, h]
  · intro h
    unfold updateMarketPools
    split
    · rfl
    · rw [h]
  · intro h
    unfold updateMarketPools
    split
    · rfl
    · split
      · rfl
      · simp [h]
  · intro market h1 hm h2 h3
    cases position <;>
      simp [updateMarketPools, poolOf, otherSide, h1, hm, h2, h3]

/-- A pool environment whose select fails. -/
def poolEnvFetchFail : PoolEnv :=
  { fetchFails := true, updateFails := false, insertFails := false,
    walletAddress := some "0xabc" }

/-- A pool environment whose update fails. -/
def poolEnvUpdateFail : PoolEnv :=
  { fetchFails := false, updateFails := true, insertFails := false,
    walletAddress := some "0xabc" }

/-- A pool environment whose position insert fails. -/
def poolEnvInsertFail : PoolEnv :=
  { fetchFails := false, updateFails := false, insertFails := true,
    walletAddress := some "0xabc" }

/-- Closed instance of C4: read and update failures leave `storeM1`
untouched; an insert failure keeps the pool update (13) yet appends no
position. -/
theorem updateMarketPools_failure_witness :
    updateMarketPools poolEnvFetchFail storeM1 "m1" Side.yes 3 = storeM1 ∧
    updateMarketPools poolEnvUpdateFail storeM1 "m1" Side.yes 3 = storeM1 ∧
    ((updateMarketPools poolEnvInsertFail storeM1 "m1" Side.yes 3).positions
        = storeM1.positions ∧
      ∃ market2,
        (updateMarketPools poolEnvInsertFail storeM1 "m1" Side.yes 3).markets "m1"
          = some market2 ∧
        poolOf Side.yes market2
          = poolOf Side.yes { yes_pool := 10, no_pool := 4 } + 3 ∧
        poolOf (otherSide Side.yes) market2
          = poolOf (otherSide Side.yes) { yes_pool := 10, no_pool := 4 }) :=
  ⟨(updateMarketPools_failure poolEnvFetchFail storeM1 "m1" Side.yes 3).1 rfl,
   (updateMarketPools_failure poolEnvUpdateFail storeM1 "m1" Side.yes 3).2.2.1 rfl,
   (updateMarketPools_failure poolEnvInsertFail storeM1 "m1" Side.yes 3).2.2.2
     { yes_pool := 10, no_pool := 4 } rfl (by simp [storeM1]) rfl rfl⟩

/-! ## C6 -/

/-- C6: `getTokenBalance` returns `"0"` on every failure — null
provider, empty (falsy) wallet address, or a rejected signer, balance or
decimals call — and on success returns the raw balance formatted to two
decimal places; no failure propagates (the return type is a plain
string, not an `Except`). -/
theorem getTokenBalance_spec (env : BalanceEnv) (walletAddress : String) :
    ((env.provider = none ∨ walletAddress = "" ∨
        (∃ e, env.signerResult = .error e) ∨
        (∃ e, env.balanceOf = .error e) ∨
        (∃ e, env.decimals = .error e)) →
      getTokenBalance env walletAddress = "0") ∧
    (∀ balance decimals, env.provider ≠ none → walletAddress ≠ "" →
      env.signerResult = .ok () → env.balanceOf = .ok balance →
      env.decimals = .ok decimals →
      getTokenBalance env walletAddress
        = formatTo2Decimals balance decimals) := by
  constructor
  · intro hfail
    unfold getTokenBalance
    rcases hfail with h | h | ⟨e, h⟩ | ⟨e, h⟩ | ⟨e, h⟩
    · simp [h]
    · simp [h]
    · split
      · rfl
      · rw [h]
    · split
      · rfl
      · rcases hs : env.signerResult with e2 | u
        · rfl
        · rw [h]
    · split
      · rfl
      · rcases hs : env.signerResult with e2 | u
        · rfl
        · rcases hb : env.balanceOf with e3 | b
          · rfl
          · rw [h]
  · intro balance decimals hp hw hs hb hd
    unfold getTokenBalance
    rw [if_neg (by tauto), hs, hb, hd]

/-- A balance environment whose calls all succeed, returning a raw
balance of 1500000 with 6 decimals. -/
def balanceEnvOk : BalanceEnv :=
  { provider := some (), signerResult := .ok (),
    balanceOf := .ok 1500000, decimals := .ok 6 }

/-- A balance environment whose `balanceOf` call rejects. -/
def balanceEnvFail : BalanceEnv :=
  { provider := some (), signerResult := .ok (),
    balanceOf := .error { message := "network error" }, decimals := .ok 6 }

/-- Closed instance of C6: raw balance 1500000 at 6 decimals formats to
"1.50"; a rejected contract call gives "0", as does a null provider. -/
theorem getTokenBalance_spec_witness :
    getTokenBalance balanceEnvOk "0xabc" = "1.50" ∧
    getTokenBalance balanceEnvFail "0xabc" = "0" ∧
    getTokenBalance { balanceEnvOk with provider := none } "0xabc" = "0" := by
  refine ⟨?_, ?_, ?_⟩
  · have h := (getTokenBalance_spec balanceEnvOk "0xabc").2 1500000 6
      (by simp [balanceEnvOk]) (by decide) rfl rfl rfl
    rw [h]; decide
  · exact (getTokenBalance_spec balanceEnvFail "0xabc").1
      (Or.inr (Or.inr (Or.inr (Or.inl ⟨{ message := "network error" }, rfl⟩))))
  · exact (getTokenBalance_spec { balanceEnvOk with provider := none }
      "0xabc").1 (Or.inl rfl)
